import Mathlib

/-!
Shallow embedding of the AMQP queue client in
`src/vendor/gopkg.in/src-d/go-queue.v1/amqp/amqp.go`.

Broker effects (channel publish, queue declare, ack, reject, consumer
cancel, channel close, transaction primitives) are modelled by oracles:
functions supplied as parameters that say whether the corresponding broker
call fails and with which error.  Every broker call a function performs is
recorded, in order, in an operation trace, so theorems can speak both
about the returned error and about which side effects were attempted.
Machine integers: Go int32 / int64 fields are modelled as Int (the values
the claims exercise never overflow and the code performs no wrapping
arithmetic on them); Go uint8 conversions are modelled as `% 256`.
-/

namespace GoQueueAmqp

/-- Default value of `Configuration.RetriesHeader` (envconfig default
`x-retries` in amqp.go). -/
def RetriesHeader : String := "x-retries"

/-- Default value of `Configuration.ErrorHeader` (envconfig default
`x-error-type` in amqp.go). -/
def ErrorHeader : String := "x-error-type"

/-- Default value of `Configuration.BuriedNonBlockingRetries` (envconfig
default 3 in amqp.go). -/
def BuriedNonBlockingRetries : Nat := 3

/-- Modelled from the spec: `queue.PriorityUrgent`, the configured maximum
urgent priority, lives in the go-queue package which is not under src/.
The spec only calls it "a configured maximum urgent priority"; its exact
numeric value is immaterial to every claim, we fix the small constant 8. -/
def PriorityUrgent : Nat := 8

/-- A value stored in an `amqp.Table` (Go `map[string]interface{}`): the
code stores int32 retries counters, strings, int64 TTLs and uint8
priorities, and a consumed message may carry a value of any other type. -/
inductive HVal where
  | int32 (v : Int)
  | int64 (v : Int)
  | uint8 (v : Nat)
  | str (s : String)
  | other
  deriving DecidableEq

/-- An `amqp.Table`: a finite map from header names to values, modelled
as an association list (the code only ever writes distinct keys). -/
def Table := List (String × HVal)

instance : DecidableEq Table := by
  unfold Table
  infer_instance

/-- Go map lookup `v, ok := table[key]`. -/
def lookupT : Table → String → Option HVal
  | [], _ => none
  | (k, v) :: rest, key => if k = key then some v else lookupT rest key

/-- `queue.Job` (go-queue package): ID, priority (Go type Priority =
uint8), creation timestamp (opaque, as Int), content type, raw payload
(byte list), retries (Go int32) and error type.  The Acknowledger field is
not part of the value model; acking and rejecting are modelled by oracles
keyed by the job. -/
structure Job where
  ID : String
  Priority : Nat
  Timestamp : Int
  ContentType : String
  Raw : List Nat
  Retries : Int
  ErrorType : String
  deriving DecidableEq

/-- Modelled from the spec: `queue.Job.Size` lives in the go-queue package
which is not under src/; the spec says the payload "must be non-empty
(empty payload is rejected at publish time)", so Size is the payload
length. -/
def Job.Size (j : Job) : Nat := j.Raw.length

/-- The fields of an `amqp.Publishing` that Publish / PublishDelayed set. -/
structure Publishing where
  DeliveryMode : Nat
  MessageId : String
  Priority : Nat
  Timestamp : Int
  ContentType : String
  Body : List Nat
  Headers : Table
  deriving DecidableEq

/-- The fields of an `amqp.Delivery` that `fromDelivery` reads
(DeliveryTag and Acknowledger are modelled by the effect oracles). -/
structure Delivery where
  MessageId : String
  Priority : Nat
  Timestamp : Int
  ContentType : String
  Body : List Nat
  Headers : Table
  deriving DecidableEq

/-- The broker redelivers a published message with the same metadata,
body and headers: the delivery seen by a consumer of the queue the
message was routed to. -/
def toDelivery (p : Publishing) : Delivery :=
  { MessageId := p.MessageId
    Priority := p.Priority
    Timestamp := p.Timestamp
    ContentType := p.ContentType
    Body := p.Body
    Headers := p.Headers }

/-- The errors of amqp.go and of the go-queue kinds it returns.  Structured
errors keep their arguments; opaque errors coming back from the broker
library are `broker` with their message text. -/
inductive QErr where
  | emptyJob
  | alreadyClosed
  | retrievingHeader (header : String) (messageId : String)
  | republishingJobs (msg : String)
  | buriedQueueNil
  | openChannel (msg : String)
  | broker (msg : String)
  deriving DecidableEq

/-- The `Error()` text of each error.  `retrievingHeader`,
`republishingJobs`, `buriedQueueNil` and `openChannel` render the format
strings of amqp.go; `emptyJob` and `alreadyClosed` are go-queue kinds not
under src/, modelled from the spec (empty-job condition, already-closed
condition) with texts whose exact wording no claim depends on. -/
def QErr.text : QErr → String
  | .emptyJob => "invalid empty job"
  | .alreadyClosed => "queue already closed"
  | .retrievingHeader h m =>
      "error retrieving " ++ h ++ " header from message " ++ m
  | .republishingJobs s => "couldnt republish some jobs : " ++ s
  | .buriedQueueNil =>
      "buriedQueue is nil, called RepublishBuried on the internal buried queue?"
  | .openChannel s => "failed to open a channel: " ++ s
  | .broker s => s

/-- The headers table Publish builds: the retries header when
`j.Retries > 0`, the error-type header when `j.ErrorType != ""`
(amqp.go lines 260-267). -/
def publishHeaders (j : Job) : Table :=
  (if j.Retries > 0 then [(RetriesHeader, HVal.int32 j.Retries)] else [])
    ++ (if j.ErrorType ≠ "" then [(ErrorHeader, HVal.str j.ErrorType)] else [])

/-- The `amqp.Publishing` Publish builds for a job (amqp.go lines
274-282): persistent delivery mode (wire value 2), the job id, the
priority converted to uint8, timestamp, content type, body, and the
headers above. -/
def toPublishing (j : Job) : Publishing :=
  { DeliveryMode := 2
    MessageId := j.ID
    Priority := j.Priority % 256
    Timestamp := j.Timestamp
    ContentType := j.ContentType
    Body := j.Raw
    Headers := publishHeaders j }

/-- `fromDelivery` (amqp.go lines 541-573): maps delivery metadata into a
fresh Job, then reads the retries header (must be an int32 when present)
and the error-type header (must be a string when present); a
present-but-wrong-typed header is `ErrRetrievingHeader.New(header,
d.MessageId)`; an absent header leaves the zero value set by the fresh
job. -/
def fromDelivery (d : Delivery) : Except QErr Job :=
  let base : Job :=
    { ID := d.MessageId
      Priority := d.Priority
      Timestamp := d.Timestamp
      ContentType := d.ContentType
      Raw := d.Body
      Retries := 0
      ErrorType := "" }
  match lookupT d.Headers RetriesHeader with
  | some (HVal.int32 r) =>
      match lookupT d.Headers ErrorHeader with
      | some (HVal.str s) => .ok { base with Retries := r, ErrorType := s }
      | some _ => .error (.retrievingHeader ErrorHeader d.MessageId)
      | none => .ok { base with Retries := r }
  | some _ => .error (.retrievingHeader RetriesHeader d.MessageId)
  | none =>
      match lookupT d.Headers ErrorHeader with
      | some (HVal.str s) => .ok { base with ErrorType := s }
      | some _ => .error (.retrievingHeader ErrorHeader d.MessageId)
      | none => .ok base

/-- A broker operation performed by the publish paths. -/
inductive BrokerOp where
  | queueDeclare (name : String) (durable autoDelete exclusive noWait : Bool)
      (args : Table)
  | publish (exchange routingKey : String) (mandatory immediate : Bool)
      (msg : Publishing)
  deriving DecidableEq

/-- The `Queue` struct of amqp.go: its declared name and, when it is a
main queue, the name of its buried queue (`buriedQueue` is nil exactly
when the Option is none; recursion depth is one, so the buried queue is
carried by name). -/
structure Queue where
  name : String
  buried : Option String
  deriving DecidableEq

/-- `Queue.Publish` (amqp.go lines 255-284).  `chPub` is the outcome of
`channel().Publish` on the built message.  Returns the trace of broker
operations and the error result.  A nil job is `none`. -/
def Queue.Publish (chPub : Publishing → Option QErr) (q : Queue)
    (j : Option Job) : List BrokerOp × Option QErr :=
  match j with
  | none => ([], some .emptyJob)
  | some j =>
      if j.Size = 0 then ([], some .emptyJob)
      else
        let msg := toPublishing j
        ([.publish "" q.name false false msg], chPub msg)

/-- The scratch-queue arguments PublishDelayed declares (amqp.go lines
300-306): dead-letter to the main queue via the default exchange, message
TTL the delay in milliseconds, queue expiry twice the TTL, max priority. -/
def delayedArgs (mainName : String) (ttl : Int) : Table :=
  [("x-dead-letter-exchange", HVal.str ""),
   ("x-dead-letter-routing-key", HVal.str mainName),
   ("x-message-ttl", HVal.int64 ttl),
   ("x-expires", HVal.int64 (ttl * 2)),
   ("x-max-priority", HVal.uint8 PriorityUrgent)]

/-- `Queue.PublishDelayed` (amqp.go lines 288-326).  `delay` is a Go
time.Duration in nanoseconds; `ttl := delay / time.Millisecond` is Go
int64 division, which truncates toward zero (`Int.tdiv`).  `chDeclare`
is the outcome of the scratch-queue declaration (on success the broker
echoes the requested name, here the job id); `chPub` the outcome of the
publish into it.  The published message sets no Headers field. -/
def Queue.PublishDelayed (chDeclare : String → Table → Option QErr)
    (chPub : Publishing → Option QErr) (q : Queue) (j : Option Job)
    (delay : Int) : List BrokerOp × Option QErr :=
  match j with
  | none => ([], some .emptyJob)
  | some j =>
      if j.Size = 0 then ([], some .emptyJob)
      else
        let ttl := delay.tdiv 1000000
        let args := delayedArgs q.name ttl
        let declOp := BrokerOp.queueDeclare j.ID true true false false args
        match chDeclare j.ID args with
        | some e => ([declOp], some e)
        | none =>
            let msg : Publishing :=
              { DeliveryMode := 2
                MessageId := j.ID
                Priority := j.Priority % 256
                Timestamp := j.Timestamp
                ContentType := j.ContentType
                Body := j.Raw
                Headers := [] }
            ([declOp, .publish "" j.ID false false msg], chPub msg)

/-- The `jobErr` struct of amqp.go: a job together with the error its
republish to the main queue produced. -/
structure JobErr where
  job : Job
  err : QErr
  deriving DecidableEq

/-- One outcome of `JobIter.nextNonBlocking` on the buried-queue stream:
a delivery was pending, no delivery was pending, or the stream was
closed (the channel receive reports not-ok, which nextNonBlocking turns
into `ErrAlreadyClosed`).  A RepublishBuried call observes a finite
sequence of such outcomes; once the list is exhausted every further
non-blocking poll finds nothing. -/
inductive Fetch where
  | delivery (d : Delivery)
  | empty
  | closed
  deriving DecidableEq

/-- A broker operation performed by RepublishBuried. -/
inductive RBOp where
  | consume (queueName : String) (prefetch : Nat)
  | ack (j : Job)
  | mainPublish (j : Job)
  | reject (j : Job) (requeue : Bool)
  | buriedPublish (j : Job)
  | iterClose
  deriving DecidableEq

/-- The drain loop of `RepublishBuried` (amqp.go lines 348-386).  For each
poll outcome: a closed stream or a decode error is returned immediately;
an empty poll sleeps and increments the retry counter, breaking once the
counter exceeds `cfg` (`BuriedNonBlockingRetries`); a job resets the
counter, is acked (an ack failure returns immediately), and is then either
republished to the main queue through `Queue.Publish` — recording the
failure in `errorsPublishing` instead of aborting — or collected into
`notComplying`.  When the fetch list is exhausted the remaining polls all
come back empty, so the loop breaks with unchanged state.  Returns the
operation trace, `notComplying`, `errorsPublishing`, and the early-return
error if the loop did not break normally. -/
def drainLoop (cfg : Nat) (ackO : Job → Option QErr)
    (chPubO : Publishing → Option QErr) (comply : Job → Bool) :
    List Fetch → Nat → List RBOp × List Job × List JobErr × Option QErr
  | [], _ => ([], [], [], none)
  | .closed :: _, _ => ([], [], [], some .alreadyClosed)
  | .empty :: rest, retries =>
      if cfg < retries then ([], [], [], none)
      else drainLoop cfg ackO chPubO comply rest (retries + 1)
  | .delivery d :: rest, _ =>
      match fromDelivery d with
      | .error e => ([], [], [], some e)
      | .ok j =>
          match ackO j with
          | some e => ([.ack j], [], [], some e)
          | none =>
              if comply j then
                -- q.Publish(j): empty-job check, then channel publish
                if j.Size = 0 then
                  let r := drainLoop cfg ackO chPubO comply rest 0
                  (.ack j :: r.1, r.2.1, ⟨j, .emptyJob⟩ :: r.2.2.1, r.2.2.2)
                else
                  match chPubO (toPublishing j) with
                  | some e =>
                      let r := drainLoop cfg ackO chPubO comply rest 0
                      (.ack j :: .mainPublish j :: r.1, r.2.1,
                        ⟨j, e⟩ :: r.2.2.1, r.2.2.2)
                  | none =>
                      let r := drainLoop cfg ackO chPubO comply rest 0
                      (.ack j :: .mainPublish j :: r.1, r.2.1, r.2.2.1,
                        r.2.2.2)
              else
                let r := drainLoop cfg ackO chPubO comply rest 0
                (.ack j :: r.1, j :: r.2.1, r.2.2.1, r.2.2.2)

/-- The jobs acked by a trace, in order. -/
def ackedJobs : List RBOp → List Job
  | [] => []
  | .ack j :: rest => j :: ackedJobs rest
  | _ :: rest => ackedJobs rest

/-- The post-loop reject pass of `RepublishBuried` (amqp.go lines
388-392): each collected job is rejected with requeue = true; a reject
failure is returned immediately, skipping the rest. -/
def rejectLoop (rejO : Job → Option QErr) :
    List Job → List RBOp × Option QErr
  | [] => ([], none)
  | j :: rest =>
      match rejO j with
      | some e => ([.reject j true], some e)
      | none =>
          let r := rejectLoop rejO rest
          (.reject j true :: r.1, r.2)

/-- The loop body of `handleRepublishErrors` (amqp.go lines 399-407):
collect each error text, publish the job back into the buried queue with
`buriedQueue.Publish` (an empty-payload job fails the publish precondition
with no broker call; a channel failure is returned immediately, after the
attempt); when the list is done, return the aggregate
`ErrRepublishingJobs` over the collected texts joined with a colon. -/
def hreLoop (bChPubO : Publishing → Option QErr) :
    List JobErr → List String → List RBOp × Option QErr
  | [], strs =>
      ([], some (.republishingJobs (String.intercalate ": " strs)))
  | je :: rest, strs =>
      if je.job.Size = 0 then ([], some .emptyJob)
      else
        match bChPubO (toPublishing je.job) with
        | some e => ([.buriedPublish je.job], some e)
        | none =>
            let r := hreLoop bChPubO rest (strs ++ [je.err.text])
            (.buriedPublish je.job :: r.1, r.2)

/-- `Queue.handleRepublishErrors` (amqp.go lines 397-411): nothing to do
on an empty list, otherwise run the loop with an empty text accumulator. -/
def handleRepublishErrors (bChPubO : Publishing → Option QErr)
    (list : List JobErr) : List RBOp × Option QErr :=
  match list with
  | [] => ([], none)
  | _ => hreLoop bChPubO list []

/-- `Queue.RepublishBuried` (amqp.go lines 335-395).  Guard: a nil buried
queue fails immediately with no broker activity.  `consumeO` is the
outcome of `buriedQueue.Consume(1)` (which registers a prefetch-1 consumer
on the buried queue); `fetches` the sequence of non-blocking poll
outcomes; `ackO`, `rejO` the per-job ack / reject outcomes; `chPubO` the
main-queue channel-publish outcomes; `bChPubO` the buried-queue
channel-publish outcomes; `comply` the combined republish conditions.
The deferred `iter.Close()` runs on every exit after the consume
succeeded (its own error is discarded by the defer). -/
def Queue.RepublishBuried (cfg : Nat) (consumeO : Option QErr)
    (fetches : List Fetch) (ackO rejO : Job → Option QErr)
    (chPubO bChPubO : Publishing → Option QErr) (comply : Job → Bool)
    (q : Queue) : List RBOp × Option QErr :=
  match q.buried with
  | none => ([], some .buriedQueueNil)
  | some bname =>
      match consumeO with
      | some e => ([.consume bname 1], some e)
      | none =>
          let d := drainLoop cfg ackO chPubO comply fetches 0
          match d.2.2.2 with
          | some e => (.consume bname 1 :: d.1 ++ [.iterClose], some e)
          | none =>
              let rj := rejectLoop rejO d.2.1
              match rj.2 with
              | some e =>
                  (.consume bname 1 :: d.1 ++ rj.1 ++ [.iterClose], some e)
              | none =>
                  let h := handleRepublishErrors bChPubO d.2.2.1
                  (.consume bname 1 :: d.1 ++ rj.1 ++ h.1 ++ [.iterClose],
                    h.2)

/-- An operation performed by `JobIter.Close`. -/
inductive IterOp where
  | cancel (id : String)
  | chCloseIter
  deriving DecidableEq

/-- The `JobIter` struct of amqp.go, by its consumer id (the channel and
stream are modelled by the oracles of the operations on them). -/
structure JobIter where
  id : String
  deriving DecidableEq

/-- `JobIter.Close` (amqp.go lines 516-522): cancel the named consumer;
if that fails return its error, otherwise close the channel and return
that result.  `cancelO` and `closeO` are the outcomes of the two calls. -/
def JobIter.Close (i : JobIter) (cancelO closeO : Option QErr) :
    List IterOp × Option QErr :=
  match cancelO with
  | some e => ([.cancel i.id], some e)
  | none => ([.cancel i.id, .chCloseIter], closeO)

/-- An operation performed by `Queue.Transaction` on its dedicated
channel. -/
inductive TxOp where
  | channelOpen
  | txBegin
  | txRollback
  | txCommit
  | chClose
  deriving DecidableEq

/-- The transactional Queue view Transaction builds (amqp.go lines
426-432): same queue name, a channel-scoped Broker substitute, and no
buriedQueue field. -/
def txQueueOf (q : Queue) : Queue :=
  { name := q.name, buried := none }

/-- `Queue.Transaction` (amqp.go lines 414-444).  `chanO` is the outcome
of opening the dedicated channel (a failure is wrapped in
`ErrOpenChannel`), `txO` of `ch.Tx()`, `rollO` of `ch.TxRollback()`,
`commitO` of `ch.TxCommit()`; `cb` is the callback, applied to the
transactional view and abstracted by its returned error.  The deferred
`ch.Close()` is registered right after the channel opens, so it runs on
every later exit path (its error is discarded by the defer). -/
def Queue.Transaction (chanO : Option String) (txO : Option QErr)
    (cb : Queue → Option QErr) (rollO commitO : Option QErr) (q : Queue) :
    List TxOp × Option QErr :=
  match chanO with
  | some e => ([.channelOpen], some (.openChannel e))
  | none =>
      match txO with
      | some e => ([.channelOpen, .txBegin, .chClose], some e)
      | none =>
          match cb (txQueueOf q) with
          | some cbErr =>
              match rollO with
              | some re =>
                  ([.channelOpen, .txBegin, .txRollback, .chClose], some re)
              | none =>
                  ([.channelOpen, .txBegin, .txRollback, .chClose],
                    some cbErr)
          | none =>
              ([.channelOpen, .txBegin, .txCommit, .chClose], commitO)

/-! ## Helper lemmas and concrete test fixtures -/

theorem lookupT_publishHeaders_retries (j : Job) :
    lookupT (publishHeaders j) RetriesHeader
      = if 0 < j.Retries then some (HVal.int32 j.Retries) else none := by
  have hne : ErrorHeader ≠ RetriesHeader := by decide
  unfold publishHeaders
  by_cases h1 : 0 < j.Retries <;> by_cases h2 : j.ErrorType ≠ "" <;>
    simp [h1, h2, lookupT, hne]

theorem lookupT_publishHeaders_error (j : Job) :
    lookupT (publishHeaders j) ErrorHeader
      = if j.ErrorType ≠ "" then some (HVal.str j.ErrorType) else none := by
  have hne : RetriesHeader ≠ ErrorHeader := by decide
  unfold publishHeaders
  by_cases h1 : 0 < j.Retries <;> by_cases h2 : j.ErrorType ≠ "" <;>
    simp [h1, h2, lookupT, hne]

/-- A main queue as built by `Broker.Queue` with the default buried-queue
suffix. -/
def q1 : Queue := { name := "q", buried := some "q.buriedQueue" }

/-- A concrete delivery with no headers. -/
def d1 : Delivery :=
  { MessageId := "m1", Priority := 0, Timestamp := 0,
    ContentType := "text/plain", Body := [1], Headers := [] }

/-- A second concrete delivery, distinct from `d1`. -/
def d2 : Delivery :=
  { MessageId := "m2", Priority := 0, Timestamp := 0,
    ContentType := "text/plain", Body := [2], Headers := [] }

/-- The job `fromDelivery` decodes from `d1`. -/
def j1 : Job :=
  { ID := "m1", Priority := 0, Timestamp := 0, ContentType := "text/plain",
    Raw := [1], Retries := 0, ErrorType := "" }

/-- The job `fromDelivery` decodes from `d2`. -/
def j2 : Job :=
  { ID := "m2", Priority := 0, Timestamp := 0, ContentType := "text/plain",
    Raw := [2], Retries := 0, ErrorType := "" }

/-- A job whose Retries field holds a negative int32 value: a value other
than the default 0 that `Publish` nevertheless drops. -/
def jNeg : Job :=
  { ID := "m-neg", Priority := 0, Timestamp := 0,
    ContentType := "text/plain", Raw := [1], Retries := -1, ErrorType := "" }

/-! ## Claims -/

/-- C4: for every job argument that is nil or has an empty payload, both
Publish and PublishDelayed return the empty-job error and perform no
broker operation (no queue declaration, no publish): the trace of broker
operations is empty. -/
theorem publish_empty_job_no_broker_ops (chPub : Publishing → Option QErr)
    (chDeclare : String → Table → Option QErr) (q : Queue) (j : Option Job)
    (delay : Int)
    (h : j = none ∨ ∃ jj, j = some jj ∧ jj.Size = 0) :
    Queue.Publish chPub q j = ([], some .emptyJob)
      ∧ Queue.PublishDelayed chDeclare chPub q j delay
        = ([], some .emptyJob) := by
  rcases h with h | ⟨jj, h, hsz⟩ <;> subst h
  · exact ⟨rfl, rfl⟩
  · exact ⟨by simp [Queue.Publish, hsz], by simp [Queue.PublishDelayed, hsz]⟩

/-- Witness for C4 at the nil job. -/
theorem publish_empty_job_no_broker_ops_witness :
    Queue.Publish (fun _ => none) q1 none = ([], some .emptyJob)
      ∧ Queue.PublishDelayed (fun _ _ => none) (fun _ => none) q1 none 200
        = ([], some .emptyJob) :=
  publish_empty_job_no_broker_ops (fun _ => none) (fun _ _ => none) q1 none
    200 (Or.inl rfl)

/-- C6 counterexample: when the consumer cancel fails, `JobIter.Close`
returns the cancel error without attempting the channel close — the claim
that both attempts are performed even when the cancel fails is false on
the code. -/
theorem jobIter_close_counterexample :
    (JobIter.Close ⟨"consumer-1"⟩ (some (QErr.broker "cancel failed")) none)
      = ([IterOp.cancel "consumer-1"], some (QErr.broker "cancel failed"))
    ∧ IterOp.chCloseIter
      ∉ (JobIter.Close ⟨"consumer-1"⟩ (some (QErr.broker "cancel failed"))
          none).1 := by
  decide

/-- C6 (amended): `JobIter.Close` cancels the named consumer
registration; if the cancel fails its error is returned and the channel
close is not attempted; otherwise the channel close is attempted and its
result is returned. -/
theorem jobIter_close_spec (i : JobIter) (cancelO closeO : Option QErr) :
    (∀ e, cancelO = some e →
        JobIter.Close i cancelO closeO = ([.cancel i.id], some e))
    ∧ (cancelO = none →
        JobIter.Close i cancelO closeO
          = ([.cancel i.id, .chCloseIter], closeO)) := by
  constructor
  · intro e he; subst he; rfl
  · intro he; subst he; rfl

/-- Witness for C6 at a failing cancel. -/
theorem jobIter_close_spec_witness :
    JobIter.Close ⟨"c"⟩ (some (QErr.broker "x")) none
      = ([IterOp.cancel "c"], some (QErr.broker "x")) :=
  (jobIter_close_spec ⟨"c"⟩ (some (QErr.broker "x")) none).1
    (QErr.broker "x") rfl

/-- C7 counterexample: the job `jNeg` has Retries = -1, which is not the
default value 0, and Publish accepts it (non-empty payload), yet the
published message carries no retries header: the header is present
exactly when Retries is positive, not exactly when it differs from the
default. -/
theorem publish_retries_header_counterexample :
    jNeg.Retries ≠ 0
    ∧ (Queue.Publish (fun _ => none) q1 (some jNeg)).2 ≠ some QErr.emptyJob
    ∧ (Queue.Publish (fun _ => none) q1 (some jNeg)).1
      = [BrokerOp.publish "" "q" false false (toPublishing jNeg)]
    ∧ lookupT (toPublishing jNeg).Headers RetriesHeader = none := by
  decide

/-- C7 (amended): for every job accepted by Publish, the published
message carries the retries header exactly when the Retries field is
positive (greater than 0), and carries the error-type header exactly when
the ErrorType field is not the empty string. -/
theorem publish_headers_exactly (chPub : Publishing → Option QErr)
    (q : Queue) (j : Job) (hraw : j.Raw ≠ []) :
    (Queue.Publish chPub q (some j)).1
      = [BrokerOp.publish "" q.name false false (toPublishing j)]
    ∧ ((lookupT (toPublishing j).Headers RetriesHeader).isSome
        ↔ 0 < j.Retries)
    ∧ ((lookupT (toPublishing j).Headers ErrorHeader).isSome
        ↔ j.ErrorType ≠ "") := by
  refine ⟨?_, ?_, ?_⟩
  · simp [Queue.Publish, Job.Size, List.length_eq_zero, hraw]
  · rw [show (toPublishing j).Headers = publishHeaders j from rfl,
      lookupT_publishHeaders_retries]
    by_cases h : 0 < j.Retries <;> simp [h]
  · rw [show (toPublishing j).Headers = publishHeaders j from rfl,
      lookupT_publishHeaders_error]
    by_cases h : j.ErrorType = "" <;> simp [h]

/-- Witness for C7 at a job with positive retries and an error type. -/
theorem publish_headers_exactly_witness :
    (Queue.Publish (fun _ => none) q1
        (some { j1 with Retries := 2, ErrorType := "network" })).1
      = [BrokerOp.publish "" "q" false false
          (toPublishing { j1 with Retries := 2, ErrorType := "network" })]
    ∧ ((lookupT (toPublishing
          { j1 with Retries := 2, ErrorType := "network" }).Headers
          RetriesHeader).isSome
        ↔ (0 : Int) < 2)
    ∧ ((lookupT (toPublishing
          { j1 with Retries := 2, ErrorType := "network" }).Headers
          ErrorHeader).isSome
        ↔ ("network" : String) ≠ "") :=
  publish_headers_exactly (fun _ => none) q1
    { j1 with Retries := 2, ErrorType := "network" } (by decide)

/-- C10: the transactional Queue view Transaction passes to its callback
is built without a buried queue, so RepublishBuried on it returns the
nil-buried-queue error immediately, with an empty broker-operation
trace, whatever the oracles say. -/
theorem tx_view_republishBuried_fails (cfg : Nat) (consumeO : Option QErr)
    (fetches : List Fetch) (ackO rejO : Job → Option QErr)
    (chPubO bChPubO : Publishing → Option QErr) (comply : Job → Bool)
    (q : Queue) :
    (txQueueOf q).buried = none
    ∧ Queue.RepublishBuried cfg consumeO fetches ackO rejO chPubO bChPubO
        comply (txQueueOf q)
      = ([], some .buriedQueueNil) :=
  ⟨rfl, rfl⟩

/-- C8: for every job accepted by PublishDelayed with delay d, the first
broker operation declares a scratch queue named by the job id,
auto-deleting, whose arguments set the message TTL to d expressed in
milliseconds (Go int64 division of the nanosecond duration), the queue
expiry to twice that TTL, and dead-letter routing to the main queue name
via the default exchange; and any message published by the call goes to
that scratch queue on the default exchange and carries neither the
retries header nor the error-type header. -/
theorem publishDelayed_scratch_queue (chDeclare : String → Table → Option QErr)
    (chPub : Publishing → Option QErr) (q : Queue) (j : Job) (delay : Int)
    (hraw : j.Raw ≠ []) :
    (Queue.PublishDelayed chDeclare chPub q (some j) delay).1.head?
      = some (BrokerOp.queueDeclare j.ID true true false false
          (delayedArgs q.name (delay.tdiv 1000000)))
    ∧ lookupT (delayedArgs q.name (delay.tdiv 1000000)) "x-message-ttl"
      = some (HVal.int64 (delay.tdiv 1000000))
    ∧ lookupT (delayedArgs q.name (delay.tdiv 1000000)) "x-expires"
      = some (HVal.int64 (delay.tdiv 1000000 * 2))
    ∧ lookupT (delayedArgs q.name (delay.tdiv 1000000))
        "x-dead-letter-exchange" = some (HVal.str "")
    ∧ lookupT (delayedArgs q.name (delay.tdiv 1000000))
        "x-dead-letter-routing-key" = some (HVal.str q.name)
    ∧ ∀ ex rk m i msg,
        BrokerOp.publish ex rk m i msg
          ∈ (Queue.PublishDelayed chDeclare chPub q (some j) delay).1 →
        ex = "" ∧ rk = j.ID ∧ lookupT msg.Headers RetriesHeader = none
          ∧ lookupT msg.Headers ErrorHeader = none := by
  have hsz : ¬ j.Size = 0 := by
    simpa [Job.Size, List.length_eq_zero] using hraw
  refine ⟨?_, rfl, rfl, rfl, rfl, ?_⟩
  · unfold Queue.PublishDelayed
    cases h : chDeclare j.ID (delayedArgs q.name (delay.tdiv 1000000)) <;>
      simp [hsz, h]
  · intro ex rk m i msg hmem
    unfold Queue.PublishDelayed at hmem
    cases h : chDeclare j.ID (delayedArgs q.name (delay.tdiv 1000000)) <;>
      simp [hsz, h] at hmem
    obtain ⟨rfl, rfl, hm2, hi2, rfl⟩ := hmem
    exact ⟨rfl, rfl, rfl, rfl⟩

/-- Witness for C8 at a concrete job and a 200ms delay. -/
theorem publishDelayed_scratch_queue_witness :
    (Queue.PublishDelayed (fun _ _ => none) (fun _ => none) q1 (some j1)
        200000000).1.head?
      = some (BrokerOp.queueDeclare "m1" true true false false
          (delayedArgs "q" 200))
    ∧ lookupT (delayedArgs "q" 200) "x-message-ttl"
      = some (HVal.int64 200)
    ∧ lookupT (delayedArgs "q" 200) "x-expires" = some (HVal.int64 400)
    ∧ lookupT (delayedArgs "q" 200) "x-dead-letter-exchange"
      = some (HVal.str "")
    ∧ lookupT (delayedArgs "q" 200) "x-dead-letter-routing-key"
      = some (HVal.str "q")
    ∧ ∀ ex rk m i msg,
        BrokerOp.publish ex rk m i msg
          ∈ (Queue.PublishDelayed (fun _ _ => none) (fun _ => none) q1
              (some j1) 200000000).1 →
        ex = "" ∧ rk = "m1" ∧ lookupT msg.Headers RetriesHeader = none
          ∧ lookupT msg.Headers ErrorHeader = none := by
  have h := publishDelayed_scratch_queue (fun _ _ => none) (fun _ => none)
    q1 j1 200000000 (by decide)
  exact h

/-- C2: for every job with non-empty payload (and a priority in the uint8
range its Go type enforces), Publish emits exactly one publish operation
carrying the encoded message, and decoding the broker redelivery of that
message with fromDelivery succeeds and yields a Job whose ID, priority,
timestamp, content type and payload equal the original job fields. -/
theorem publish_fromDelivery_roundtrip (chPub : Publishing → Option QErr)
    (q : Queue) (j : Job) (hraw : j.Raw ≠ []) (hp : j.Priority < 256) :
    (Queue.Publish chPub q (some j)).1
      = [BrokerOp.publish "" q.name false false (toPublishing j)]
    ∧ ∃ j2, fromDelivery (toDelivery (toPublishing j)) = .ok j2
      ∧ j2.ID = j.ID ∧ j2.Priority = j.Priority
      ∧ j2.Timestamp = j.Timestamp ∧ j2.ContentType = j.ContentType
      ∧ j2.Raw = j.Raw := by
  constructor
  · simp [Queue.Publish, Job.Size, List.length_eq_zero, hraw]
  · have hR := lookupT_publishHeaders_retries j
    have hE := lookupT_publishHeaders_error j
    have hmod : j.Priority % 256 = j.Priority := Nat.mod_eq_of_lt hp
    refine ⟨{ ID := j.ID, Priority := j.Priority % 256,
              Timestamp := j.Timestamp, ContentType := j.ContentType,
              Raw := j.Raw,
              Retries := if 0 < j.Retries then j.Retries else 0,
              ErrorType := j.ErrorType }, ?_, rfl, hmod, rfl, rfl, rfl⟩
    unfold fromDelivery
    simp only [toDelivery, toPublishing]
    by_cases h1 : 0 < j.Retries <;> by_cases h2 : j.ErrorType = "" <;>
      simp [hR, hE, h1, h2]

/-- Witness for C2 at a concrete job with retries and an error type. -/
theorem publish_fromDelivery_roundtrip_witness :
    (Queue.Publish (fun _ => none) q1
        (some { j1 with Retries := 3, ErrorType := "boom" })).1
      = [BrokerOp.publish "" "q" false false
          (toPublishing { j1 with Retries := 3, ErrorType := "boom" })]
    ∧ ∃ j2,
        fromDelivery (toDelivery
            (toPublishing { j1 with Retries := 3, ErrorType := "boom" }))
          = .ok j2
        ∧ j2.ID = "m1" ∧ j2.Priority = 0 ∧ j2.Timestamp = 0
        ∧ j2.ContentType = "text/plain" ∧ j2.Raw = [1] :=
  publish_fromDelivery_roundtrip (fun _ => none) q1
    { j1 with Retries := 3, ErrorType := "boom" } (by decide) (by decide)

/-- C5: fromDelivery returns the header-retrieval error naming the
retries header and the message id whenever the retries header is present
but not an int32; it returns the one naming the error-type header
whenever that header is present but not a string (and the retries header
did not already fail); and an absent header leaves the corresponding Job
field at its zero value and never produces an error naming that header. -/
theorem fromDelivery_header_handling (d : Delivery) :
    (∀ v, lookupT d.Headers RetriesHeader = some v →
        (∀ r, v ≠ HVal.int32 r) →
        fromDelivery d
          = .error (.retrievingHeader RetriesHeader d.MessageId))
    ∧ (∀ v, lookupT d.Headers ErrorHeader = some v →
        (∀ s, v ≠ HVal.str s) →
        (∀ w, lookupT d.Headers RetriesHeader = some w →
          ∃ r, w = HVal.int32 r) →
        fromDelivery d
          = .error (.retrievingHeader ErrorHeader d.MessageId))
    ∧ (lookupT d.Headers RetriesHeader = none →
        (∀ j, fromDelivery d = .ok j → j.Retries = 0)
        ∧ ∀ m, fromDelivery d ≠ .error (.retrievingHeader RetriesHeader m))
    ∧ (lookupT d.Headers ErrorHeader = none →
        (∀ j, fromDelivery d = .ok j → j.ErrorType = "")
        ∧ ∀ m, fromDelivery d ≠ .error (.retrievingHeader ErrorHeader m)) := by
  have hne : RetriesHeader ≠ ErrorHeader := by decide
  refine ⟨?_, ?_, ?_, ?_⟩
  · intro v hv hni
    unfold fromDelivery
    cases v with
    | int32 r => exact absurd rfl (hni r)
    | _ => simp [hv]
  · intro v hv hns hri
    unfold fromDelivery
    cases hR : lookupT d.Headers RetriesHeader with
    | none => cases v with
      | str s => exact absurd rfl (hns s)
      | _ => simp [hR, hv]
    | some w =>
        obtain ⟨r, rfl⟩ := hri w hR
        cases v with
        | str s => exact absurd rfl (hns s)
        | _ => simp [hR, hv]
  · intro hR
    unfold fromDelivery
    cases hE : lookupT d.Headers ErrorHeader with
    | none =>
        refine ⟨?_, ?_⟩
        · intro j hj
          simp [hR, hE] at hj
          simp [← hj]
        · intro m hj
          simp [hR, hE] at hj
    | some v =>
        cases v with
        | str s =>
            refine ⟨?_, ?_⟩
            · intro j hj
              simp [hR, hE] at hj
              simp [← hj]
            · intro m hj
              simp [hR, hE] at hj
        | _ =>
            refine ⟨?_, ?_⟩ <;> intro x hj <;> simp [hR, hE] at hj
            exact absurd hj.1 (Ne.symm hne)
  · intro hE
    unfold fromDelivery
    cases hR : lookupT d.Headers RetriesHeader with
    | none =>
        refine ⟨?_, ?_⟩
        · intro j hj
          simp [hR, hE] at hj
          simp [← hj]
        · intro m hj
          simp [hR, hE] at hj
    | some v =>
        cases v with
        | int32 r =>
            refine ⟨?_, ?_⟩
            · intro j hj
              simp [hR, hE] at hj
              simp [← hj]
            · intro m hj
              simp [hR, hE] at hj
        | _ =>
            refine ⟨?_, ?_⟩ <;> intro x hj <;> simp [hR, hE] at hj
            exact absurd hj.1 hne

/-- Witness for C5: a delivery whose retries header holds a string fails
with the error naming the retries header and the message id. -/
theorem fromDelivery_header_handling_witness :
    fromDelivery
        { MessageId := "m9", Priority := 0, Timestamp := 0,
          ContentType := "text/plain", Body := [1],
          Headers := [(RetriesHeader, HVal.str "oops")] }
      = .error (.retrievingHeader RetriesHeader "m9") :=
  (fromDelivery_header_handling
      { MessageId := "m9", Priority := 0, Timestamp := 0,
        ContentType := "text/plain", Body := [1],
        Headers := [(RetriesHeader, HVal.str "oops")] }).1
    (HVal.str "oops") (by decide) (by intro r h; cases h)

/-- C9: once Transaction has opened its channel and begun the
transaction, a callback error is followed by a rollback: if the rollback
succeeds the callback error is returned, and if the rollback fails its
error is returned instead; a successful callback is followed by a commit
whose result is returned; and the dedicated channel is closed on every
one of these exit paths. -/
theorem transaction_paths (cb : Queue → Option QErr)
    (rollO commitO : Option QErr) (q : Queue) :
    (∀ cbErr, cb (txQueueOf q) = some cbErr →
        (rollO = none →
          Queue.Transaction none none cb rollO commitO q
            = ([.channelOpen, .txBegin, .txRollback, .chClose], some cbErr))
        ∧ ∀ re, rollO = some re →
          Queue.Transaction none none cb rollO commitO q
            = ([.channelOpen, .txBegin, .txRollback, .chClose], some re))
    ∧ (cb (txQueueOf q) = none →
        Queue.Transaction none none cb rollO commitO q
          = ([.channelOpen, .txBegin, .txCommit, .chClose], commitO))
    ∧ TxOp.chClose ∈ (Queue.Transaction none none cb rollO commitO q).1 := by
  refine ⟨?_, ?_, ?_⟩
  · intro cbErr hcb
    constructor
    · intro hro
      simp [Queue.Transaction, hcb, hro]
    · intro re hro
      simp [Queue.Transaction, hcb, hro]
  · intro hcb
    simp [Queue.Transaction, hcb]
  · unfold Queue.Transaction
    cases hcb : cb (txQueueOf q) with
    | none => simp
    | some cbErr => cases rollO <;> simp

/-- Witness for C9: a failing callback with a succeeding rollback returns
the callback error after rolling back, with the channel closed. -/
theorem transaction_paths_witness :
    Queue.Transaction none none (fun _ => some (QErr.broker "cb failed"))
        none none q1
      = ([.channelOpen, .txBegin, .txRollback, .chClose],
          some (QErr.broker "cb failed")) :=
  ((transaction_paths (fun _ => some (QErr.broker "cb failed")) none none
      q1).1 (QErr.broker "cb failed") rfl).1 rfl

theorem rejectLoop_all_ok (rejO : Job → Option QErr) :
    ∀ nc : List Job, (∀ j ∈ nc, rejO j = none) →
      rejectLoop rejO nc = (nc.map fun j => RBOp.reject j true, none)
  | [], _ => rfl
  | j :: rest, h => by
      have hj : rejO j = none := h j (List.mem_cons_self j rest)
      have ih := rejectLoop_all_ok rejO rest
        (fun x hx => h x (List.mem_cons_of_mem j hx))
      simp [rejectLoop, hj, ih]

theorem hreLoop_all_ok (bChPubO : Publishing → Option QErr) :
    ∀ (list : List JobErr) (strs : List String),
      (∀ je ∈ list, je.job.Size ≠ 0 ∧ bChPubO (toPublishing je.job) = none) →
      hreLoop bChPubO list strs
        = (list.map fun je => RBOp.buriedPublish je.job,
            some (.republishingJobs (String.intercalate ": "
              (strs ++ list.map fun je => je.err.text))))
  | [], strs, _ => by simp [hreLoop]
  | je :: rest, strs, h => by
      obtain ⟨hsz, hpub⟩ := h je (List.mem_cons_self je rest)
      have ih := hreLoop_all_ok bChPubO rest (strs ++ [je.err.text])
        (fun x hx => h x (List.mem_cons_of_mem je hx))
      simp [hreLoop, hsz, hpub, ih]

theorem hreLoop_ops_buried (bChPubO : Publishing → Option QErr) :
    ∀ (list : List JobErr) (strs : List String) (op : RBOp),
      op ∈ (hreLoop bChPubO list strs).1 → ∃ j, op = RBOp.buriedPublish j
  | [], _, _, h => absurd h (by simp [hreLoop])
  | je :: rest, strs, op, h => by
      by_cases hsz : je.job.Size = 0
      · simp [hreLoop, hsz] at h
      · cases hb : bChPubO (toPublishing je.job) with
        | some e =>
            simp [hreLoop, hsz, hb] at h
            exact ⟨je.job, h⟩
        | none =>
            simp [hreLoop, hsz, hb] at h
            rcases h with h | h
            · exact ⟨je.job, h⟩
            · exact hreLoop_ops_buried bChPubO rest (strs ++ [je.err.text])
                op h

theorem handleRepublishErrors_ops_buried (bChPubO : Publishing → Option QErr)
    (list : List JobErr) (op : RBOp)
    (h : op ∈ (handleRepublishErrors bChPubO list).1) :
    ∃ j, op = RBOp.buriedPublish j := by
  cases list with
  | nil => simp [handleRepublishErrors] at h
  | cons je rest => exact hreLoop_ops_buried bChPubO (je :: rest) [] op h

theorem drainLoop_normal_exit (cfg : Nat) (ackO : Job → Option QErr)
    (chPubO : Publishing → Option QErr) (comply : Job → Bool)
    (fs : List Fetch) :
    ∀ (r : Nat) (ops : List RBOp) (nc : List Job) (ep : List JobErr),
      drainLoop cfg ackO chPubO comply fs r = (ops, nc, ep, none) →
      nc = (ackedJobs ops).filter (fun j => !comply j)
      ∧ ∀ j, RBOp.mainPublish j ∈ ops → comply j = true := by
  induction fs with
  | nil =>
      intro r ops nc ep h
      simp only [drainLoop, Prod.mk.injEq] at h
      obtain ⟨rfl, rfl, rfl, -⟩ := h
      simp [ackedJobs]
  | cons f rest ih =>
      intro r ops nc ep h
      cases f with
      | closed =>
          simp only [drainLoop, Prod.mk.injEq] at h
          exact absurd h.2.2.2 (by simp)
      | empty =>
          simp only [drainLoop] at h
          by_cases hr : cfg < r
          · rw [if_pos hr] at h
            simp only [Prod.mk.injEq] at h
            obtain ⟨rfl, rfl, rfl, -⟩ := h
            simp [ackedJobs]
          · rw [if_neg hr] at h
            exact ih (r + 1) ops nc ep h
      | delivery d =>
          cases hfd : fromDelivery d with
          | error e =>
              simp only [drainLoop, hfd, Prod.mk.injEq] at h
              exact absurd h.2.2.2 (by simp)
          | ok j =>
              cases hack : ackO j with
              | some e =>
                  simp only [drainLoop, hfd, hack, Prod.mk.injEq] at h
                  exact absurd h.2.2.2 (by simp)
              | none =>
                  rcases hdr : drainLoop cfg ackO chPubO comply rest 0 with
                    ⟨ops', nc', ep', res'⟩
                  by_cases hc : comply j = true
                  · by_cases hsz : j.Size = 0
                    · simp only [drainLoop, hfd, hack, hdr, if_pos hc,
                        if_pos hsz, Prod.mk.injEq] at h
                      obtain ⟨rfl, rfl, rfl, hres⟩ := h
                      subst hres
                      obtain ⟨e1, e2⟩ := ih 0 ops' nc' ep' hdr
                      refine ⟨?_, ?_⟩
                      · rw [e1]; simp [ackedJobs, hc]
                      · intro x hx
                        rcases List.mem_cons.mp hx with hx | hx
                        · simp at hx
                        · exact e2 x hx
                    · cases hcp : chPubO (toPublishing j) with
                      | some e =>
                          simp only [drainLoop, hfd, hack, hdr, if_pos hc,
                            if_neg hsz, hcp, Prod.mk.injEq] at h
                          obtain ⟨rfl, rfl, rfl, hres⟩ := h
                          subst hres
                          obtain ⟨e1, e2⟩ := ih 0 ops' nc' ep' hdr
                          refine ⟨?_, ?_⟩
                          · rw [e1]; simp [ackedJobs, hc]
                          · intro x hx
                            rcases List.mem_cons.mp hx with hx | hx
                            · simp at hx
                            · rcases List.mem_cons.mp hx with hx | hx
                              · rw [show x = j by simpa using hx]
                                exact hc
                              · exact e2 x hx
                      | none =>
                          simp only [drainLoop, hfd, hack, hdr, if_pos hc,
                            if_neg hsz, hcp, Prod.mk.injEq] at h
                          obtain ⟨rfl, rfl, rfl, hres⟩ := h
                          subst hres
                          obtain ⟨e1, e2⟩ := ih 0 ops' nc' ep' hdr
                          refine ⟨?_, ?_⟩
                          · rw [e1]; simp [ackedJobs, hc]
                          · intro x hx
                            rcases List.mem_cons.mp hx with hx | hx
                            · simp at hx
                            · rcases List.mem_cons.mp hx with hx | hx
                              · rw [show x = j by simpa using hx]
                                exact hc
                              · exact e2 x hx
                  · simp only [drainLoop, hfd, hack, hdr, if_neg hc,
                      Prod.mk.injEq] at h
                    obtain ⟨rfl, rfl, rfl, hres⟩ := h
                    subst hres
                    obtain ⟨e1, e2⟩ := ih 0 ops' nc' ep' hdr
                    refine ⟨?_, ?_⟩
                    · rw [e1]
                      simp only [Bool.not_eq_true] at hc
                      simp [ackedJobs, hc]
                    · intro x hx
                      rcases List.mem_cons.mp hx with hx | hx
                      · simp at hx
                      · exact e2 x hx

/-- A RepublishBuried run in which both fetched jobs comply, both fail to
republish to the main queue, and re-burying the first job fails. -/
def c1run : List RBOp × Option QErr :=
  Queue.RepublishBuried 3 none [Fetch.delivery d1, Fetch.delivery d2]
    (fun _ => none) (fun _ => none)
    (fun _ => some (QErr.broker "main publish failed"))
    (fun msg =>
      if msg.MessageId = "m1" then some (QErr.broker "bury failed")
      else none)
    (fun _ => true) q1

/-- C1 counterexample: in `c1run` the job decoded from `d2` is a
complying job whose republish to the main queue was attempted and failed
(every main-queue publish fails), yet it is never published back into the
buried queue and the call returns the re-bury failure of the first job
instead of an aggregate error naming every failing job: a failing job is
dropped when a re-bury publish itself fails. -/
theorem republishBuried_rebury_counterexample :
    RBOp.mainPublish j2 ∈ c1run.1
    ∧ RBOp.buriedPublish j1 ∈ c1run.1
    ∧ RBOp.buriedPublish j2 ∉ c1run.1
    ∧ c1run.2 = some (QErr.broker "bury failed") := by
  decide

/-- C1 (amended): when the drain loop exits normally, every collected
rejection succeeds, at least one complying job failed to republish, and
every re-bury publish succeeds, the call publishes each failing job back
into the buried queue via a fresh Publish and returns the aggregate error
naming every failing job's error text, only after all affected jobs have
been re-buried (every re-bury operation is in the trace before the call
returns); if a re-bury publish fails, that error is returned instead and
later failing jobs are not re-buried. -/
theorem republishBuried_rebury_aggregate (cfg : Nat) (fetches : List Fetch)
    (ackO rejO : Job → Option QErr)
    (chPubO bChPubO : Publishing → Option QErr) (comply : Job → Bool)
    (q : Queue) (bname : String) (dops : List RBOp) (nc : List Job)
    (ep : List JobErr)
    (hq : q.buried = some bname)
    (hdrain : drainLoop cfg ackO chPubO comply fetches 0
      = (dops, nc, ep, none))
    (hrej : ∀ j ∈ nc, rejO j = none)
    (hep : ep ≠ [])
    (hbp : ∀ je ∈ ep, je.job.Size ≠ 0
      ∧ bChPubO (toPublishing je.job) = none) :
    Queue.RepublishBuried cfg none fetches ackO rejO chPubO bChPubO comply q
      = (RBOp.consume bname 1 :: dops
          ++ nc.map (fun j => RBOp.reject j true)
          ++ ep.map (fun je => RBOp.buriedPublish je.job)
          ++ [RBOp.iterClose],
        some (.republishingJobs (String.intercalate ": "
          (ep.map fun je => je.err.text)))) := by
  have hrl := rejectLoop_all_ok rejO nc hrej
  have hh := hreLoop_all_ok bChPubO ep [] hbp
  have hhre : handleRepublishErrors bChPubO ep
      = (ep.map fun je => RBOp.buriedPublish je.job,
          some (.republishingJobs (String.intercalate ": "
            (ep.map fun je => je.err.text)))) := by
    cases ep with
    | nil => exact absurd rfl hep
    | cons je rest => simpa [handleRepublishErrors] using hh
  simp only [Queue.RepublishBuried, hq, hdrain, hrl, hhre]

/-- Witness for C1: one buried job, complying, whose main-queue publish
fails and whose re-bury succeeds: the job is re-buried and the aggregate
error carries its error text. -/
theorem republishBuried_rebury_aggregate_witness :
    Queue.RepublishBuried 3 none [Fetch.delivery d1] (fun _ => none)
        (fun _ => none) (fun _ => some (QErr.broker "main publish failed"))
        (fun _ => none) (fun _ => true) q1
      = ([RBOp.consume "q.buriedQueue" 1, RBOp.ack j1, RBOp.mainPublish j1,
          RBOp.buriedPublish j1, RBOp.iterClose],
        some (QErr.republishingJobs "main publish failed")) := by
  have h := republishBuried_rebury_aggregate 3 [Fetch.delivery d1]
    (fun _ => none) (fun _ => none)
    (fun _ => some (QErr.broker "main publish failed")) (fun _ => none)
    (fun _ => true) q1 "q.buriedQueue"
    [RBOp.ack j1, RBOp.mainPublish j1] []
    [⟨j1, QErr.broker "main publish failed"⟩]
    rfl (by decide) (by intro j hj; exact absurd hj (List.not_mem_nil j))
    (by decide)
    (by
      intro je hje
      rw [List.mem_singleton] at hje
      subst hje
      exact ⟨by decide, rfl⟩)
  exact h.trans (by decide)

/-- A RepublishBuried run in which no fetched job complies and the
requeue-rejection of the first collected job fails. -/
def c3run : List RBOp × Option QErr :=
  Queue.RepublishBuried 3 none [Fetch.delivery d1, Fetch.delivery d2]
    (fun _ => none)
    (fun j =>
      if j.ID = "m1" then some (QErr.broker "reject failed") else none)
    (fun _ => none) (fun _ => none) (fun _ => false) q1

/-- C3 counterexample: in `c3run` the job decoded from `d2` is fetched
(acked) during the drain loop and does not comply (no job complies), yet
after the loop it is never rejected with requeue = true: the failing
rejection of the first collected job makes the call return early,
skipping the rest of the collection. -/
theorem republishBuried_noncomplying_counterexample :
    RBOp.ack j2 ∈ c3run.1
    ∧ RBOp.reject j1 true ∈ c3run.1
    ∧ RBOp.reject j2 true ∉ c3run.1
    ∧ c3run.2 = some (QErr.broker "reject failed") := by
  decide

/-- C3 (amended): when the drain loop exits normally, the collected
"not complying" set is exactly the set of fetched (acked) jobs the
conditions reject; and provided every requeue-rejection succeeds, each
job in the collection is rejected with requeue = true on the buried-queue
consumer and is never published to the main queue during the call. -/
theorem republishBuried_noncomplying (cfg : Nat) (fetches : List Fetch)
    (ackO rejO : Job → Option QErr)
    (chPubO bChPubO : Publishing → Option QErr) (comply : Job → Bool)
    (q : Queue) (bname : String) (dops : List RBOp) (nc : List Job)
    (ep : List JobErr)
    (hq : q.buried = some bname)
    (hdrain : drainLoop cfg ackO chPubO comply fetches 0
      = (dops, nc, ep, none))
    (hrej : ∀ j ∈ nc, rejO j = none) :
    nc = (ackedJobs dops).filter (fun j => !comply j)
    ∧ ∀ j ∈ nc,
        RBOp.reject j true
          ∈ (Queue.RepublishBuried cfg none fetches ackO rejO chPubO bChPubO
              comply q).1
        ∧ RBOp.mainPublish j
          ∉ (Queue.RepublishBuried cfg none fetches ackO rejO chPubO bChPubO
              comply q).1 := by
  obtain ⟨e1, e2⟩ := drainLoop_normal_exit cfg ackO chPubO comply fetches 0
    dops nc ep hdrain
  have hrl := rejectLoop_all_ok rejO nc hrej
  have hRB : Queue.RepublishBuried cfg none fetches ackO rejO chPubO bChPubO
      comply q
      = (RBOp.consume bname 1 :: dops
          ++ (nc.map fun j => RBOp.reject j true)
          ++ (handleRepublishErrors bChPubO ep).1 ++ [RBOp.iterClose],
        (handleRepublishErrors bChPubO ep).2) := by
    simp only [Queue.RepublishBuried, hq, hdrain, hrl]
  refine ⟨e1, fun j hj => ⟨?_, ?_⟩⟩
  · rw [hRB]
    have hmap : RBOp.reject j true ∈ nc.map fun x => RBOp.reject x true :=
      List.mem_map_of_mem _ hj
    exact List.mem_cons_of_mem _ (List.mem_append_left _
      (List.mem_append_left _ (List.mem_append_right _ hmap)))
  · have hcomply : comply j = false := by
      have := e1 ▸ hj
      have h2 := (List.mem_filter.mp this).2
      simpa using h2
    intro hmem
    rw [hRB] at hmem
    rcases List.mem_cons.mp hmem with hx | hx
    · cases hx
    · rcases List.mem_append.mp hx with hx | hx
      · rcases List.mem_append.mp hx with hx | hx
        · rcases List.mem_append.mp hx with hx | hx
          · rw [e2 j hx] at hcomply
            cases hcomply
          · rcases List.mem_map.mp hx with ⟨x, -, hx2⟩
            cases hx2
        · obtain ⟨x, hx2⟩ := handleRepublishErrors_ops_buried bChPubO ep _ hx
          cases hx2
      · rw [List.mem_singleton] at hx
        cases hx

/-- Witness for C3: two buried jobs, neither complying, all rejections
succeeding: both are collected and both are rejected with requeue = true,
and neither is published to the main queue. -/
theorem republishBuried_noncomplying_witness :
    RBOp.reject j2 true
      ∈ (Queue.RepublishBuried 3 none [Fetch.delivery d1, Fetch.delivery d2]
          (fun _ => none) (fun _ => none) (fun _ => none) (fun _ => none)
          (fun _ => false) q1).1
    ∧ RBOp.mainPublish j2
      ∉ (Queue.RepublishBuried 3 none [Fetch.delivery d1, Fetch.delivery d2]
          (fun _ => none) (fun _ => none) (fun _ => none) (fun _ => none)
          (fun _ => false) q1).1 := by
  have h := republishBuried_noncomplying 3 [Fetch.delivery d1,
      Fetch.delivery d2] (fun _ => none) (fun _ => none) (fun _ => none)
    (fun _ => none) (fun _ => false) q1 "q.buriedQueue"
    [RBOp.ack j1, RBOp.ack j2] [j1, j2] [] rfl (by decide)
    (by intro j hj; rfl)
  exact h.2 j2 (by decide)

end GoQueueAmqp
